import Mathlib

/-!
# The `scard` binding of go.pcsclite, embedded in Lean

The package `scard` (file `scard/scard.go`) wraps the PC/SC entry points of
libpcsclite.  Every exported operation marshals its arguments, performs one
or two native calls, checks the status, and converts the output parameters.

The embedding keeps that shape:

* the native library is an arbitrary transition function `Native σ` from a
  native state and a call (with the marshalled arguments) to a reply (status
  and output parameters) and a new native state;
* the `World` threads the native state and keeps the chronological log of
  the native calls made together with their replies;
* a Go run-time panic (an explicit `panic`, an index or a slice bound
  failure) is the `Outcome.panicked` result;
* a Go byte slice and a Go string are lists of bytes, the nil slice being
  the empty list; a Go `error` is `Option scardError`, `none` being `nil`;
  a nil pointer result is `none`;
* the numeric Go types `Protocol`, `State`, `StateFlag`, `ShareMode`,
  `Disposition` and `Timeout` are declared outside `scard.go`; their values
  and the `C.DWORD` values are natural numbers and the conversions between
  them are the identity.  The one conversion whose two types `scard.go`
  fixes, `scardError(r)` from `C.LONG` to `uint32`, is modelled with its
  reduction modulo `2^32`;
* a fixed-length buffer handed to the native layer keeps its length: what
  the native layer stores replaces a prefix of it (`writeBuf`);
* `make([]byte, n)` with a length `n` reported by the native layer panics
  when `n` exceeds the limit `maxAlloc` of the Go runtime; exhausting the
  memory of the machine below that limit is a failure of the environment
  and has no counterpart, and a slice as long as one the caller already
  holds is taken to be allocatable;
* releasing the C strings (`C.free`) has no counterpart.
-/

namespace scard

/-! ## Machine types -/

/-- A Go `byte`. -/
abbrev Byte := Fin 256

/-- A Go `string`: an immutable sequence of bytes. -/
abbrev GoString := List Byte

/-- The C type `LONG` of the native status codes (a signed integer). -/
abbrev LONG := Int

/-- The C type `DWORD` (an unsigned integer). -/
abbrev DWORD := Nat

/-- The Go type `scardError`, declared `type scardError uint32`. -/
structure scardError where
  code : Nat
deriving DecidableEq, Repr

/-- The Go conversion `scardError(r)` of a `C.LONG` to the 32-bit unsigned
error type: the value modulo `2^32`. -/
def scardError.ofLONG (r : LONG) : scardError :=
  ⟨(r % 4294967296).toNat⟩

/-! ## Constants of the native header

The numeric values below are the ones of the pcsc-lite header `pcsclite.h`
that `#include <winscard.h>` brings in. -/

/-- Status `SCARD_S_SUCCESS`. -/
def SCARD_S_SUCCESS : LONG := 0

/-- Status `SCARD_E_INVALID_HANDLE`. -/
def SCARD_E_INVALID_HANDLE : LONG := 0x80100003

/-- Scope `SCARD_SCOPE_SYSTEM`. -/
def SCARD_SCOPE_SYSTEM : DWORD := 2

/-- Protocol `SCARD_PROTOCOL_UNDEFINED`. -/
def SCARD_PROTOCOL_UNDEFINED : DWORD := 0

/-- Protocol `SCARD_PROTOCOL_T0`. -/
def SCARD_PROTOCOL_T0 : DWORD := 1

/-- Protocol `SCARD_PROTOCOL_T1`. -/
def SCARD_PROTOCOL_T1 : DWORD := 2

/-- Protocol `SCARD_PROTOCOL_RAW`. -/
def SCARD_PROTOCOL_RAW : DWORD := 4

/-- Protocol mask `SCARD_PROTOCOL_ANY`, the union of T=0 and T=1. -/
def SCARD_PROTOCOL_ANY : DWORD := 3

/-- Capacity `MAX_READERNAME`. -/
def MAX_READERNAME : Nat := 128

/-- Capacity `MAX_ATR_SIZE`. -/
def MAX_ATR_SIZE : Nat := 33

/-- Capacity `MAX_BUFFER_SIZE_EXTENDED`, that is `4 + 3 + (1<<16) + 3 + 2`. -/
def MAX_BUFFER_SIZE_EXTENDED : Nat := 65548

/-- The constant `maxAlloc` of the Go runtime on 64-bit Linux, `1 << 48`:
`make([]byte, n)` panics with `makeslice: len out of range` when `n` exceeds
it (a `C.DWORD` beyond the range of `int` exceeds it as well). -/
def maxAlloc : Nat := 281474976710656

/-- The length `0xffff` of the array `recv` of `Control`. -/
def controlRecvSize : Nat := 0xffff

/-- The size `C.sizeof_SCARD_IO_REQUEST` of two unsigned longs. -/
def sizeof_SCARD_IO_REQUEST : DWORD := 16

/-- Modelled from the spec: the Go declaration of the `Protocol` constants is
not part of the available source.  The spec names the active-protocol
enumeration ("no protocol", "T=0", "T=1", "raw", "any") and requires the
values "as defined by the native header (not reinvented locally)". -/
def PROTOCOL_UNDEFINED : DWORD := SCARD_PROTOCOL_UNDEFINED

/-- Modelled from the spec: the "T=0" member of the protocol enumeration,
with the value of the native header. -/
def PROTOCOL_T0 : DWORD := SCARD_PROTOCOL_T0

/-- Modelled from the spec: the "T=1" member of the protocol enumeration,
with the value of the native header. -/
def PROTOCOL_T1 : DWORD := SCARD_PROTOCOL_T1

/-- Modelled from the spec: the "raw" member of the protocol enumeration,
with the value of the native header. -/
def PROTOCOL_RAW : DWORD := SCARD_PROTOCOL_RAW

/-- Modelled from the spec: the "any" member of the protocol enumeration,
with the value of the native header. -/
def PROTOCOL_ANY : DWORD := SCARD_PROTOCOL_ANY

/-! ## Data model -/

/-- The Go struct `Context`. -/
structure Context where
  ctx : Nat
deriving DecidableEq, Repr

/-- The Go struct `Card`. -/
structure Card where
  handle : Nat
  activeProtocol : DWORD
deriving DecidableEq, Repr

/-- Modelled from the spec: the Go struct `ReaderState` is declared outside
the available source.  The spec describes it as a "mutable record pairing a
reader name with a current state bitmask (input) and an event state bitmask
(output)"; the source reads `Reader` and `CurrentState` and writes
`EventState`. -/
structure ReaderState where
  Reader : GoString
  CurrentState : DWORD
  EventState : DWORD
deriving DecidableEq, Repr

/-- Modelled from the spec: the Go struct `CardStatus` is declared outside
the available source.  The spec lists "reader name, overall state bitmask,
active protocol, and the card's answer-to-reset byte sequence"; the source
fills the fields `Reader`, `State`, `ActiveProtocol` and `ATR`. -/
structure CardStatus where
  Reader : GoString
  State : DWORD
  ActiveProtocol : DWORD
  ATR : List Byte
deriving DecidableEq, Repr

/-- The C struct `SCARD_READERSTATE` of the native header. -/
structure SCARD_READERSTATE where
  szReader : List Byte
  pvUserData : Nat
  dwCurrentState : DWORD
  dwEventState : DWORD
  cbAtr : DWORD
  rgbAtr : List Byte
deriving DecidableEq, Repr

/-- The C struct `SCARD_IO_REQUEST` of the native header. -/
structure SCARD_IO_REQUEST where
  dwProtocol : DWORD
  cbPciLength : DWORD
deriving DecidableEq, Repr

/-! ## The native layer -/

/-- A call of a native entry point with its marshalled arguments.  A pointer
to an input buffer is `none` for `NULL` and otherwise the bytes it points to;
a pointer to an output buffer is `none` for `NULL` and otherwise the capacity
of the buffer; an in/out length pointer is the value it holds at the call. -/
inductive Call where
  | EstablishContext (dwScope : DWORD)
  | IsValidContext (hContext : Nat)
  | Cancel (hContext : Nat)
  | ReleaseContext (hContext : Nat)
  | ListReaders (hContext : Nat) (mszGroups : Option (List Byte))
      (mszReaders : Option Nat) (pcchReaders : DWORD)
  | ListReaderGroups (hContext : Nat) (mszGroups : Option Nat) (pcchGroups : DWORD)
  | GetStatusChange (hContext : Nat) (dwTimeout : DWORD)
      (rgReaderStates : List SCARD_READERSTATE) (cReaders : DWORD)
  | Connect (hContext : Nat) (szReader : List Byte) (dwShareMode : DWORD)
      (dwPreferredProtocols : DWORD)
  | Disconnect (hCard : Nat) (dwDisposition : DWORD)
  | Reconnect (hCard : Nat) (dwShareMode : DWORD) (dwPreferredProtocols : DWORD)
      (dwInitialization : DWORD)
  | BeginTransaction (hCard : Nat)
  | EndTransaction (hCard : Nat) (dwDisposition : DWORD)
  | Status (hCard : Nat) (cchReaderLen : DWORD) (cbAtrLen : DWORD)
  | Transmit (hCard : Nat) (pioSendPci : SCARD_IO_REQUEST) (pbSendBuffer : List Byte)
      (cbSendLength : DWORD) (cbRecvLength : DWORD)
  | Control (hCard : Nat) (dwControlCode : DWORD) (pbSendBuffer : Option (List Byte))
      (cbSendLength : DWORD) (cbRecvLength : DWORD)
  | GetAttrib (hCard : Nat) (dwAttrId : DWORD) (pbAttr : Option Nat) (pcbAttrLen : DWORD)
  | SetAttrib (hCard : Nat) (dwAttrId : DWORD) (pbAttr : List Byte) (cbAttrLen : DWORD)
deriving DecidableEq, Repr

/-- What a native call hands back: its status and the values it stores
through its output pointers.  A call uses the fields that correspond to its
own output parameters and the binding ignores the others.

* `handle`: `*phContext` or `*phCard`;
* `length`: the length stored through the in/out length pointer
  (`*pcchReaders`, `*pcchGroups`, `*pcchReaderLen`, `*pcbRecvLength`,
  `*lpBytesReturned`, `*pcbAttrLen`);
* `data`: the bytes stored from the start of the main output buffer;
* `state`, `protocol`: `*pdwState`, and `*pdwActiveProtocol` or `*pdwProtocol`;
* `atr`, `atrLen`: the bytes stored from the start of `pbAtr`, and `*pcbAtrLen`;
* `readerStates`: the records stored from the start of `rgReaderStates`. -/
structure Reply where
  status : LONG
  handle : Nat
  length : DWORD
  data : List Byte
  state : DWORD
  protocol : DWORD
  atr : List Byte
  atrLen : DWORD
  readerStates : List SCARD_READERSTATE
deriving DecidableEq, Repr

/-- The native library: from its state and a call, a reply and a new state. -/
abbrev Native (σ : Type) := σ → Call → Reply × σ

/-- The native state together with the log of the native calls made so far,
oldest first. -/
structure World (σ : Type) where
  st : σ
  log : List (Call × Reply)

/-- Perform one native call and record it. -/
def World.invoke {σ : Type} (N : Native σ) (w : World σ) (c : Call) : Reply × World σ :=
  ((N w.st c).1, ⟨(N w.st c).2, w.log ++ [(c, (N w.st c).1)]⟩)

/-- A Go run-time panic. -/
inductive Panic where
  | unknownProtocol
  | indexOutOfRange
  | sliceBoundsOutOfRange
  | makesliceLenOutOfRange
deriving DecidableEq, Repr

/-- How a Go function ends: it returns its results or it panics. -/
inductive Outcome (α : Type) where
  | returned (v : α)
  | panicked (p : Panic)
deriving DecidableEq, Repr

/-- The contents of a fixed-length buffer after the native layer has stored
`written` from its start: the stored elements replace the old ones and the
length of the buffer does not change. -/
def writeBuf {α : Type} (buf written : List α) : List α :=
  (written ++ buf.drop written.length).take buf.length

/-! ## The functions of package `bytes` that the binding uses -/

/-- Go `bytes.IndexByte(b, c)`: the index of the first `c` in `b`, `none`
standing for `-1`. -/
def IndexByte : List Byte → Byte → Option Nat
  | [], _ => none
  | x :: xs, c => if x = c then some 0 else (IndexByte xs c).map (· + 1)

/-- Go `bytes.Count(s, sep)` for a separator of one byte. -/
def Count : List Byte → Byte → Nat
  | [], _ => 0
  | x :: xs, c => (if x = c then 1 else 0) + Count xs c

/-- The loop of Go `genSplit` for a separator of one byte, run at most
`n` times: cut at the first separator, go on with the rest. -/
def genSplitLoop (sep : Byte) : Nat → List Byte → List (List Byte)
  | 0, s => [s]
  | n + 1, s =>
    match IndexByte s sep with
    | none => [s]
    | some m => s.take m :: genSplitLoop sep n (s.drop (m + 1))

/-- Go `bytes.Split(s, []byte{sep})`: `genSplit` with `n = Count(s, sep) + 1`
result slots, hence at most `Count(s, sep)` cuts. -/
def Split (s : List Byte) (sep : Byte) : List (List Byte) :=
  genSplitLoop sep (Count s sep) s

/-- The `for ... range bytes.Split(data, []byte{0})` loop shared by
`ListReaders` and `ListReaderGroups`: append every segment of positive length. -/
def collectNames (data : List Byte) : List GoString :=
  (Split data 0).foldl (fun names b => if b.length > 0 then names ++ [b] else names) []

/-- `C.CString(s)`: the bytes of `s` followed by the terminating NUL. -/
def CString (s : GoString) : List Byte := s ++ [0]

/-! ## Context operations -/

/-- Go `EstablishContext`. -/
def EstablishContext {σ : Type} (N : Native σ) (w : World σ) :
    Outcome (Option Context × Option scardError) × World σ :=
  let q := w.invoke N (Call.EstablishContext SCARD_SCOPE_SYSTEM)
  if q.1.status ≠ SCARD_S_SUCCESS then
    (.returned (none, some (scardError.ofLONG q.1.status)), q.2)
  else
    (.returned (some ⟨q.1.handle⟩, none), q.2)

/-- Go `(*Context).IsValid`. -/
def Context.IsValid {σ : Type} (N : Native σ) (ctx : Context) (w : World σ) :
    Outcome (Bool × Option scardError) × World σ :=
  let q := w.invoke N (Call.IsValidContext ctx.ctx)
  if q.1.status = SCARD_S_SUCCESS then
    (.returned (true, none), q.2)
  else if q.1.status = SCARD_E_INVALID_HANDLE then
    (.returned (false, none), q.2)
  else
    (.returned (false, some (scardError.ofLONG q.1.status)), q.2)

/-- Go `(*Context).Cancel`. -/
def Context.Cancel {σ : Type} (N : Native σ) (ctx : Context) (w : World σ) :
    Outcome (Option scardError) × World σ :=
  let q := w.invoke N (Call.Cancel ctx.ctx)
  if q.1.status ≠ SCARD_S_SUCCESS then
    (.returned (some (scardError.ofLONG q.1.status)), q.2)
  else
    (.returned none, q.2)

/-- Go `(*Context).Release`. -/
def Context.Release {σ : Type} (N : Native σ) (ctx : Context) (w : World σ) :
    Outcome (Option scardError) × World σ :=
  let q := w.invoke N (Call.ReleaseContext ctx.ctx)
  if q.1.status ≠ SCARD_S_SUCCESS then
    (.returned (some (scardError.ofLONG q.1.status)), q.2)
  else
    (.returned none, q.2)

/-- Go `(*Context).ListReaders`. -/
def Context.ListReaders {σ : Type} (N : Native σ) (ctx : Context) (w : World σ) :
    Outcome (List GoString × Option scardError) × World σ :=
  let q := w.invoke N (Call.ListReaders ctx.ctx none none 0)
  if q.1.status ≠ SCARD_S_SUCCESS then
    (.returned ([], some (scardError.ofLONG q.1.status)), q.2)
  else
    let needed := q.1.length
    if needed > maxAlloc then
      (.panicked .makesliceLenOutOfRange, q.2)
    else
      let data : List Byte := List.replicate needed 0
      if data.length = 0 then
        (.panicked .indexOutOfRange, q.2)
      else
        let f := q.2.invoke N (Call.ListReaders ctx.ctx none (some data.length) needed)
        if f.1.status ≠ SCARD_S_SUCCESS then
          (.returned ([], some (scardError.ofLONG f.1.status)), f.2)
        else
          (.returned (collectNames (writeBuf data f.1.data), none), f.2)

/-- Go `(*Context).ListReaderGroups`. -/
def Context.ListReaderGroups {σ : Type} (N : Native σ) (ctx : Context) (w : World σ) :
    Outcome (List GoString × Option scardError) × World σ :=
  let q := w.invoke N (Call.ListReaderGroups ctx.ctx none 0)
  if q.1.status ≠ SCARD_S_SUCCESS then
    (.returned ([], some (scardError.ofLONG q.1.status)), q.2)
  else
    let needed := q.1.length
    if needed > maxAlloc then
      (.panicked .makesliceLenOutOfRange, q.2)
    else
      let data : List Byte := List.replicate needed 0
      if data.length = 0 then
        (.panicked .indexOutOfRange, q.2)
      else
        let f := q.2.invoke N (Call.ListReaderGroups ctx.ctx (some data.length) needed)
        if f.1.status ≠ SCARD_S_SUCCESS then
          (.returned ([], some (scardError.ofLONG f.1.status)), f.2)
        else
          (.returned (collectNames (writeBuf data f.1.data), none), f.2)

/-- The Go loop `for i := range xs` over the indices `0 .. n-1`, carrying
the state the body updates. -/
def forRange {β : Type} (n : Nat) (body : Nat → β → β) (init : β) : β :=
  (List.range n).foldl (fun acc i => body i acc) init

/-- The zero value of `C.SCARD_READERSTATE`, as `make` produces it. -/
def SCARD_READERSTATE.zero : SCARD_READERSTATE :=
  ⟨[], 0, 0, 0, 0, []⟩

/-- Body of the first loop of `GetStatusChange`: store the C string of the
reader name and the current state in `crs[i]`. -/
def marshalState (readerStates : List ReaderState) (i : Nat)
    (crs : List SCARD_READERSTATE) : List SCARD_READERSTATE :=
  match readerStates[i]?, crs[i]? with
  | some rs, some c =>
    crs.set i { c with szReader := CString rs.Reader, dwCurrentState := rs.CurrentState }
  | _, _ => crs

/-- Body of the second loop of `GetStatusChange`: copy `crs[i].dwEventState`
to `readerStates[i].EventState`. -/
def storeEventState (crs : List SCARD_READERSTATE) (i : Nat)
    (readerStates : List ReaderState) : List ReaderState :=
  match readerStates[i]?, crs[i]? with
  | some rs, some c => readerStates.set i { rs with EventState := c.dwEventState }
  | _, _ => readerStates

/-- Go `(*Context).GetStatusChange`.  The slice `readerStates` is updated in
place, so its final contents are part of the result. -/
def Context.GetStatusChange {σ : Type} (N : Native σ) (ctx : Context)
    (readerStates : List ReaderState) (timeout : DWORD) (w : World σ) :
    Outcome (Option scardError) × List ReaderState × World σ :=
  let crs := List.replicate readerStates.length SCARD_READERSTATE.zero
  let crs := forRange readerStates.length (marshalState readerStates) crs
  if crs.length = 0 then
    (.panicked .indexOutOfRange, readerStates, w)
  else
    let q := w.invoke N (Call.GetStatusChange ctx.ctx timeout crs crs.length)
    if q.1.status ≠ SCARD_S_SUCCESS then
      (.returned (some (scardError.ofLONG q.1.status)), readerStates, q.2)
    else
      let crs := writeBuf crs q.1.readerStates
      (.returned none, forRange readerStates.length (storeEventState crs) readerStates, q.2)

/-- Go `(*Context).Connect`. -/
def Context.Connect {σ : Type} (N : Native σ) (ctx : Context) (reader : GoString)
    (mode proto : DWORD) (w : World σ) :
    Outcome (Option Card × Option scardError) × World σ :=
  let q := w.invoke N (Call.Connect ctx.ctx (CString reader) mode proto)
  if q.1.status ≠ SCARD_S_SUCCESS then
    (.returned (none, some (scardError.ofLONG q.1.status)), q.2)
  else
    (.returned (some ⟨q.1.handle, q.1.protocol⟩, none), q.2)

/-! ## Card operations -/

/-- Go `(*Card).Disconnect`. -/
def Card.Disconnect {σ : Type} (N : Native σ) (card : Card) (d : DWORD) (w : World σ) :
    Outcome (Option scardError) × World σ :=
  let q := w.invoke N (Call.Disconnect card.handle d)
  if q.1.status ≠ SCARD_S_SUCCESS then
    (.returned (some (scardError.ofLONG q.1.status)), q.2)
  else
    (.returned none, q.2)

/-- Go `(*Card).Reconnect`.  The receiver is updated in place, so the card
after the call is part of the result. -/
def Card.Reconnect {σ : Type} (N : Native σ) (card : Card) (mode protocol init : DWORD)
    (w : World σ) : Outcome (Option scardError) × Card × World σ :=
  let q := w.invoke N (Call.Reconnect card.handle mode protocol init)
  if q.1.status ≠ SCARD_S_SUCCESS then
    (.returned (some (scardError.ofLONG q.1.status)), card, q.2)
  else
    (.returned none, { card with activeProtocol := q.1.protocol }, q.2)

/-- Go `(*Card).BeginTransaction`. -/
def Card.BeginTransaction {σ : Type} (N : Native σ) (card : Card) (w : World σ) :
    Outcome (Option scardError) × World σ :=
  let q := w.invoke N (Call.BeginTransaction card.handle)
  if q.1.status ≠ SCARD_S_SUCCESS then
    (.returned (some (scardError.ofLONG q.1.status)), q.2)
  else
    (.returned none, q.2)

/-- Go `(*Card).EndTransaction`. -/
def Card.EndTransaction {σ : Type} (N : Native σ) (card : Card) (d : DWORD) (w : World σ) :
    Outcome (Option scardError) × World σ :=
  let q := w.invoke N (Call.EndTransaction card.handle d)
  if q.1.status ≠ SCARD_S_SUCCESS then
    (.returned (some (scardError.ofLONG q.1.status)), q.2)
  else
    (.returned none, q.2)

/-- Go `(*Card).Status`. -/
def Card.Status {σ : Type} (N : Native σ) (card : Card) (w : World σ) :
    Outcome (Option CardStatus × Option scardError) × World σ :=
  let readerBuf : List Byte := List.replicate (MAX_READERNAME + 1) 0
  let atr : List Byte := List.replicate MAX_ATR_SIZE 0
  let q := w.invoke N (Call.Status card.handle readerBuf.length atr.length)
  if q.1.status ≠ SCARD_S_SUCCESS then
    (.returned (none, some (scardError.ofLONG q.1.status)), q.2)
  else
    let readerBuf := writeBuf readerBuf q.1.data
    let atr := writeBuf atr q.1.atr
    let readerLen := q.1.length
    let atrLen := q.1.atrLen
    if readerLen > readerBuf.length then
      (.panicked .sliceBoundsOutOfRange, q.2)
    else
      let reader := readerBuf.take readerLen
      let reader :=
        match IndexByte reader 0 with
        | some z => reader.take z
        | none => reader
      if atrLen > atr.length then
        (.panicked .sliceBoundsOutOfRange, q.2)
      else
        (.returned (some ⟨reader, q.1.state, q.1.protocol, atr.take atrLen⟩, none), q.2)

/-- The `switch card.activeProtocol` of `Transmit`: the protocol stored in
`sendpci.dwProtocol`, `none` for the `default` branch. -/
def sendPciProtocol (activeProtocol : DWORD) : Option DWORD :=
  if activeProtocol = PROTOCOL_T0 then some SCARD_PROTOCOL_T0
  else if activeProtocol = PROTOCOL_T1 then some SCARD_PROTOCOL_T1
  else none

/-- Go `(*Card).Transmit`. -/
def Card.Transmit {σ : Type} (N : Native σ) (card : Card) (cmd : List Byte) (w : World σ) :
    Outcome (List Byte × Option scardError) × World σ :=
  match sendPciProtocol card.activeProtocol with
  | none => (.panicked .unknownProtocol, w)
  | some p =>
    let sendpci : SCARD_IO_REQUEST := ⟨p, sizeof_SCARD_IO_REQUEST⟩
    let recv : List Byte := List.replicate MAX_BUFFER_SIZE_EXTENDED 0
    if cmd.length = 0 then
      (.panicked .indexOutOfRange, w)
    else
      let q := w.invoke N (Call.Transmit card.handle sendpci cmd cmd.length recv.length)
      if q.1.status ≠ SCARD_S_SUCCESS then
        (.returned ([], some (scardError.ofLONG q.1.status)), q.2)
      else
        let recv := writeBuf recv q.1.data
        let recvlen := q.1.length
        if recvlen > maxAlloc then
          (.panicked .makesliceLenOutOfRange, q.2)
        else if recvlen > recv.length then
          (.panicked .sliceBoundsOutOfRange, q.2)
        else
          (.returned (recv.take recvlen, none), q.2)

/-- Go `(*Card).Control`. -/
def Card.Control {σ : Type} (N : Native σ) (card : Card) (ctrl : DWORD) (cmd : List Byte)
    (w : World σ) : Outcome (List Byte × Option scardError) × World σ :=
  let recv : List Byte := List.replicate controlRecvSize 0
  let q :=
    if cmd.length = 0 then
      w.invoke N (Call.Control card.handle ctrl none 0 recv.length)
    else
      w.invoke N (Call.Control card.handle ctrl (some cmd) cmd.length recv.length)
  if q.1.status ≠ SCARD_S_SUCCESS then
    (.returned ([], some (scardError.ofLONG q.1.status)), q.2)
  else
    let recv := writeBuf recv q.1.data
    let recvlen := q.1.length
    if recvlen > maxAlloc then
      (.panicked .makesliceLenOutOfRange, q.2)
    else if recvlen > recv.length then
      (.panicked .sliceBoundsOutOfRange, q.2)
    else
      (.returned (recv.take recvlen, none), q.2)

/-- Go `(*Card).GetAttrib`. -/
def Card.GetAttrib {σ : Type} (N : Native σ) (card : Card) (id : DWORD) (w : World σ) :
    Outcome (List Byte × Option scardError) × World σ :=
  let q := w.invoke N (Call.GetAttrib card.handle id none 0)
  if q.1.status ≠ SCARD_S_SUCCESS then
    (.returned ([], some (scardError.ofLONG q.1.status)), q.2)
  else
    let needed := q.1.length
    if needed > maxAlloc then
      (.panicked .makesliceLenOutOfRange, q.2)
    else
      let attrib : List Byte := List.replicate needed 0
      if attrib.length = 0 then
        (.panicked .indexOutOfRange, q.2)
      else
        let f := q.2.invoke N (Call.GetAttrib card.handle id (some attrib.length) needed)
        if f.1.status ≠ SCARD_S_SUCCESS then
          (.returned ([], some (scardError.ofLONG f.1.status)), f.2)
        else
          let attrib := writeBuf attrib f.1.data
          let needed := f.1.length
          if needed > attrib.length then
            (.panicked .sliceBoundsOutOfRange, f.2)
          else
            (.returned (attrib.take needed, none), f.2)

/-- Go `(*Card).SetAttrib`. -/
def Card.SetAttrib {σ : Type} (N : Native σ) (card : Card) (id : DWORD) (data : List Byte)
    (w : World σ) : Outcome (Option scardError) × World σ :=
  if data.length = 0 then
    (.panicked .indexOutOfRange, w)
  else
    let q := w.invoke N (Call.SetAttrib card.handle id data data.length)
    if q.1.status ≠ SCARD_S_SUCCESS then
      (.returned (some (scardError.ofLONG q.1.status)), q.2)
    else
      (.returned none, q.2)

/-! ## Specification-side notions -/

/-- Specification of the reader list: the non-empty segments obtained by
splitting the raw buffer on NUL bytes, in buffer order. -/
def nonEmptySegments (buf : List Byte) : List GoString :=
  (buf.splitOn 0).filter (fun seg => decide (seg ≠ []))

/-- A native layer that hands out a fixed script of replies, one per call,
whatever the call; once the script is exhausted every call fails with
`SCARD_E_INVALID_HANDLE`. -/
def scripted : Native (List Reply) := fun s _ =>
  match s with
  | [] => (⟨SCARD_E_INVALID_HANDLE, 0, 0, [], 0, 0, [], 0, []⟩, [])
  | r :: rs => (r, rs)

/-- A successful reply that stores `length` and `data` and zeroes elsewhere. -/
def Reply.success (length : DWORD) (data : List Byte) : Reply :=
  ⟨SCARD_S_SUCCESS, 0, length, data, 0, 0, [], 0, []⟩

/-- A reply of status `r` that stores nothing. -/
def Reply.ofStatus (r : LONG) : Reply :=
  ⟨r, 0, 0, [], 0, 0, [], 0, []⟩

/-- A request of the caller that holds one card variable: connect to a
reader (on success the variable holds the new card) or reconnect the card
held. -/
inductive ConnOp where
  | connect (ctx : Context) (reader : GoString) (mode proto : DWORD)
  | reconnect (mode protocol init : DWORD)
deriving DecidableEq, Repr

/-- One request: `Connect` replaces the card held when it returns a card and
leaves it alone when it returns `nil`; `Reconnect` is called on the card
held and updates it in place. -/
def ConnOp.step {σ : Type} (N : Native σ) (op : ConnOp) (cw : Option Card × World σ) :
    Option Card × World σ :=
  match op, cw with
  | .connect ctx reader mode proto, (held, w) =>
    match Context.Connect N ctx reader mode proto w with
    | (.returned (some card, _), w') => (some card, w')
    | (_, w') => (held, w')
  | .reconnect mode protocol init, (some card, w) =>
    (some (Card.Reconnect N card mode protocol init w).2.1,
      (Card.Reconnect N card mode protocol init w).2.2)
  | .reconnect _ _ _, (none, w) => (none, w)

/-- A sequence of requests, in order. -/
def runConnOps {σ : Type} (N : Native σ) (ops : List ConnOp) (cw : Option Card × World σ) :
    Option Card × World σ :=
  ops.foldl (fun acc op => op.step N acc) cw

/-- Whether a logged native call is a connect or reconnect that succeeded. -/
def isNegotiation (e : Call × Reply) : Bool :=
  match e.1 with
  | .Connect _ _ _ _ => decide (e.2.status = SCARD_S_SUCCESS)
  | .Reconnect _ _ _ _ => decide (e.2.status = SCARD_S_SUCCESS)
  | _ => false

/-- Specification of the negotiated protocol: the active protocol the native
layer reported in the most recent successful connect or reconnect of a log. -/
def lastNegotiated (log : List (Call × Reply)) : Option DWORD :=
  (log.reverse.find? isNegotiation).map (fun e => e.2.protocol)

/-- A successful reply of a connect or reconnect: card handle and protocol. -/
def Reply.connected (handle : Nat) (protocol : DWORD) : Reply :=
  ⟨SCARD_S_SUCCESS, handle, 0, [], 0, protocol, [], 0, []⟩

/-- Specification of the array handed to the native status-change call: one
record per reader state, in order, with the C string of the reader name and
the current state, every other field zero. -/
def marshalled (readerStates : List ReaderState) : List SCARD_READERSTATE :=
  readerStates.map (fun rs => ⟨CString rs.Reader, 0, rs.CurrentState, 0, 0, []⟩)

/-- A successful reply of the status-change call that stores `crs`. -/
def Reply.changed (crs : List SCARD_READERSTATE) : Reply :=
  ⟨SCARD_S_SUCCESS, 0, 0, [], 0, 0, [], 0, crs⟩

/-- A successful reply of the status call: reader name length and bytes,
state, protocol, ATR bytes and ATR length. -/
def Reply.cardStatus (length : DWORD) (data : List Byte) (state protocol : DWORD)
    (atr : List Byte) (atrLen : DWORD) : Reply :=
  ⟨SCARD_S_SUCCESS, 0, length, data, state, protocol, atr, atrLen, []⟩

/-- The operations of the binding, each with its arguments. -/
inductive Op where
  | EstablishContext
  | IsValid (ctx : Context)
  | Cancel (ctx : Context)
  | Release (ctx : Context)
  | ListReaders (ctx : Context)
  | ListReaderGroups (ctx : Context)
  | GetStatusChange (ctx : Context) (readerStates : List ReaderState) (timeout : DWORD)
  | Connect (ctx : Context) (reader : GoString) (mode proto : DWORD)
  | Disconnect (card : Card) (d : DWORD)
  | Reconnect (card : Card) (mode protocol init : DWORD)
  | BeginTransaction (card : Card)
  | EndTransaction (card : Card) (d : DWORD)
  | Status (card : Card)
  | Transmit (card : Card) (cmd : List Byte)
  | Control (card : Card) (ctrl : DWORD) (cmd : List Byte)
  | GetAttrib (card : Card) (id : DWORD)
  | SetAttrib (card : Card) (id : DWORD) (data : List Byte)
deriving DecidableEq, Repr

/-- The error of an outcome that pairs a value with an error: `none` when
the error is `nil` and when the operation panicked. -/
def errorOfPair {α : Type} : Outcome (α × Option scardError) → Option scardError
  | .returned (_, e) => e
  | .panicked _ => none

/-- The error of an outcome that is only an error: `none` when the error is
`nil` and when the operation panicked. -/
def errorOf : Outcome (Option scardError) → Option scardError
  | .returned e => e
  | .panicked _ => none

/-- One run of an operation from the native state `s` with an empty log: the
error it returns and the native calls it makes, in order. -/
def Op.run {σ : Type} (N : Native σ) (s : σ) : Op → Option scardError × List (Call × Reply)
  | .EstablishContext =>
    (errorOfPair (scard.EstablishContext N ⟨s, []⟩).1, (scard.EstablishContext N ⟨s, []⟩).2.log)
  | .IsValid ctx =>
    (errorOfPair (ctx.IsValid N ⟨s, []⟩).1, (ctx.IsValid N ⟨s, []⟩).2.log)
  | .Cancel ctx =>
    (errorOf (ctx.Cancel N ⟨s, []⟩).1, (ctx.Cancel N ⟨s, []⟩).2.log)
  | .Release ctx =>
    (errorOf (ctx.Release N ⟨s, []⟩).1, (ctx.Release N ⟨s, []⟩).2.log)
  | .ListReaders ctx =>
    (errorOfPair (ctx.ListReaders N ⟨s, []⟩).1, (ctx.ListReaders N ⟨s, []⟩).2.log)
  | .ListReaderGroups ctx =>
    (errorOfPair (ctx.ListReaderGroups N ⟨s, []⟩).1, (ctx.ListReaderGroups N ⟨s, []⟩).2.log)
  | .GetStatusChange ctx readerStates timeout =>
    (errorOf (ctx.GetStatusChange N readerStates timeout ⟨s, []⟩).1,
      (ctx.GetStatusChange N readerStates timeout ⟨s, []⟩).2.2.log)
  | .Connect ctx reader mode proto =>
    (errorOfPair (ctx.Connect N reader mode proto ⟨s, []⟩).1,
      (ctx.Connect N reader mode proto ⟨s, []⟩).2.log)
  | .Disconnect card d =>
    (errorOf (card.Disconnect N d ⟨s, []⟩).1, (card.Disconnect N d ⟨s, []⟩).2.log)
  | .Reconnect card mode protocol init =>
    (errorOf (card.Reconnect N mode protocol init ⟨s, []⟩).1,
      (card.Reconnect N mode protocol init ⟨s, []⟩).2.2.log)
  | .BeginTransaction card =>
    (errorOf (card.BeginTransaction N ⟨s, []⟩).1, (card.BeginTransaction N ⟨s, []⟩).2.log)
  | .EndTransaction card d =>
    (errorOf (card.EndTransaction N d ⟨s, []⟩).1, (card.EndTransaction N d ⟨s, []⟩).2.log)
  | .Status card =>
    (errorOfPair (card.Status N ⟨s, []⟩).1, (card.Status N ⟨s, []⟩).2.log)
  | .Transmit card cmd =>
    (errorOfPair (card.Transmit N cmd ⟨s, []⟩).1, (card.Transmit N cmd ⟨s, []⟩).2.log)
  | .Control card ctrl cmd =>
    (errorOfPair (card.Control N ctrl cmd ⟨s, []⟩).1, (card.Control N ctrl cmd ⟨s, []⟩).2.log)
  | .GetAttrib card id =>
    (errorOfPair (card.GetAttrib N id ⟨s, []⟩).1, (card.GetAttrib N id ⟨s, []⟩).2.log)
  | .SetAttrib card id data =>
    (errorOf (card.SetAttrib N id data ⟨s, []⟩).1, (card.SetAttrib N id data ⟨s, []⟩).2.log)

/-- The propagation policy as the spec words it, for one run: every native
call but the last one succeeded (no call follows a failed one), and when the
last call failed the operation returns the error of exactly its status. -/
def FailStop (run : Option scardError × List (Call × Reply)) : Prop :=
  (∀ e ∈ run.2.dropLast, e.2.status = SCARD_S_SUCCESS)
  ∧ (∀ e, run.2.getLast? = some e → e.2.status ≠ SCARD_S_SUCCESS →
      run.1 = some (scardError.ofLONG e.2.status))

/-- Entry `i` of the native array after the body of the first loop ran at `i`. -/
def marshalAt (readerStates : List ReaderState) (i : Nat)
    (o : Option SCARD_READERSTATE) : Option SCARD_READERSTATE :=
  match readerStates[i]?, o with
  | some rs, some c =>
    some { c with szReader := CString rs.Reader, dwCurrentState := rs.CurrentState }
  | _, _ => o

/-- Entry `i` of the reader states after the body of the second loop ran at `i`. -/
def storeAt (crs : List SCARD_READERSTATE) (i : Nat)
    (o : Option ReaderState) : Option ReaderState :=
  match o, crs[i]? with
  | some rs, some c => some { rs with EventState := c.dwEventState }
  | _, _ => o

/-- Script of the witness of C4: a connect that negotiates T=0, a reconnect
that fails, a reconnect that negotiates T=1, a reconnect that fails. -/
def negotiationScript : List Reply :=
  [Reply.connected 7 SCARD_PROTOCOL_T0, Reply.ofStatus 0x80100069,
    Reply.connected 0 SCARD_PROTOCOL_T1, Reply.ofStatus 0x80100069]

/-- Requests of the witness of C4; every request asks for "any" or for T=0. -/
def negotiationOps : List ConnOp :=
  [.connect ⟨1⟩ [82] 2 PROTOCOL_ANY, .reconnect 2 PROTOCOL_T0 0,
    .reconnect 2 PROTOCOL_T0 1, .reconnect 2 PROTOCOL_ANY 1]

/-! ## Basic facts -/

theorem writeBuf_length {α : Type} (buf written : List α) :
    (writeBuf buf written).length = buf.length := by
  simp only [writeBuf, List.length_take, List.length_append, List.length_drop]
  omega

theorem ofLONG_code_of_range (r : LONG) (h0 : 0 ≤ r) (h1 : r < 4294967296) :
    ((scardError.ofLONG r).code : Int) = r := by
  simp only [scardError.ofLONG]
  rw [Int.emod_eq_of_lt h0 h1]
  exact Int.toNat_of_nonneg h0

theorem genSplitLoop_eq_splitOn (sep : Byte) :
    ∀ (s : List Byte) (n : Nat), Count s sep ≤ n → genSplitLoop sep n s = s.splitOn sep := by
  intro s
  induction s with
  | nil => intro n _; cases n <;> simp [genSplitLoop, IndexByte]
  | cons x xs ih =>
    intro n h
    by_cases hx : x = sep
    · subst hx
      cases n with
      | zero => simp [Count] at h
      | succ n =>
        have h' : Count xs x ≤ n := by
          simp only [Count, if_true] at h; omega
        have hi := ih n h'
        simp only [List.splitOn] at hi
        simp [genSplitLoop, IndexByte, List.splitOn, hi]
    · have h' : Count xs sep ≤ n := by simpa [Count, hx] using h
      have hi := ih n h'
      cases n with
      | zero =>
        simp only [genSplitLoop] at hi ⊢
        simp [List.splitOn, hx] at hi ⊢
        simp [← hi]
      | succ n =>
        simp only [genSplitLoop, IndexByte, if_neg hx] at hi ⊢
        cases hm : IndexByte xs sep with
        | none =>
          simp only [hm] at hi
          simp [List.splitOn, hx] at hi ⊢
          simp [← hi]
        | some m =>
          simp only [hm] at hi
          simp [List.splitOn, hx] at hi ⊢
          simp [← hi]

theorem Split_eq_splitOn (s : List Byte) (sep : Byte) : Split s sep = s.splitOn sep :=
  genSplitLoop_eq_splitOn sep s _ (Nat.le_refl _)

theorem collect_foldl (l : List (List Byte)) (acc : List GoString) :
    l.foldl (fun names b => if b.length > 0 then names ++ [b] else names) acc
      = acc ++ l.filter (fun seg => decide (seg ≠ [])) := by
  induction l generalizing acc with
  | nil => simp
  | cons b bs ih =>
    cases b with
    | nil => simp [ih]
    | cons y ys => simp [ih]

theorem collectNames_eq (data : List Byte) : collectNames data = nonEmptySegments data := by
  simp [collectNames, nonEmptySegments, collect_foldl, Split_eq_splitOn]

theorem mem_splitOn_not_mem (sep : Byte) :
    ∀ (s : List Byte), ∀ seg ∈ s.splitOn sep, sep ∉ seg := by
  intro s
  induction s with
  | nil => simp
  | cons x xs ih =>
    simp only [List.splitOn] at ih ⊢
    rw [List.splitOnP_cons]
    by_cases hx : x = sep
    · subst hx
      simp only [beq_self_eq_true, if_true, List.mem_cons]
      rintro seg (rfl | hseg)
      · simp
      · exact ih seg hseg
    · have hb : (x == sep) = false := by simpa using hx
      simp only [hb, Bool.false_eq_true, if_false]
      cases hl : List.splitOnP (fun y => y == sep) xs with
      | nil => simp [List.modifyHead]
      | cons l ls =>
        rw [hl] at ih
        simp only [List.modifyHead, List.mem_cons]
        rintro seg (rfl | hseg)
        · have := ih l (by simp)
          simp only [List.mem_cons, not_or]
          exact ⟨fun h => hx h.symm, this⟩
        · exact ih seg (by simp [hseg])

theorem flatten_filter_ne_nil (l : List (List Byte)) :
    (l.filter (fun seg => decide (seg ≠ []))).flatten = l.flatten := by
  induction l with
  | nil => rfl
  | cons b bs ih =>
    cases b with
    | nil => simpa using ih
    | cons y ys => simpa using ih

theorem flatten_splitOn (sep : Byte) :
    ∀ (s : List Byte), (s.splitOn sep).flatten = s.filter (fun b => decide (b ≠ sep)) := by
  intro s
  induction s with
  | nil => simp
  | cons x xs ih =>
    simp only [List.splitOn] at ih ⊢
    rw [List.splitOnP_cons]
    by_cases hx : x = sep
    · subst hx
      simpa using ih
    · have hb : (x == sep) = false := by simpa using hx
      simp only [hb, Bool.false_eq_true, if_false]
      cases hl : List.splitOnP (fun y => y == sep) xs with
      | nil => exact absurd hl (List.splitOnP_ne_nil _ _)
      | cons l ls =>
        rw [hl] at ih
        simp only [List.modifyHead, List.flatten_cons, List.cons_append] at ih ⊢
        simp [hx, ih]

theorem invoke_fst {σ : Type} (N : Native σ) (w : World σ) (c : Call) :
    (w.invoke N c).1 = (N w.st c).1 := rfl

theorem invoke_log {σ : Type} (N : Native σ) (w : World σ) (c : Call) :
    (w.invoke N c).2.log = w.log ++ [(c, (N w.st c).1)] := rfl

/-! ## Reader enumeration -/

/-- C1.  `ListReaders` (resp. `ListReaderGroups`) returns a name list and no
error exactly when the call is successful: the size query succeeds and
reports a size that is positive and within the allocation limit, and the
fetch succeeds.  The list returned is then the names collected from the raw
buffer that the fetch filled; and for every raw buffer the names collected
are exactly its non-empty NUL-delimited segments in buffer order: none is
empty, none contains a NUL byte, there are as many as the buffer has
non-empty NUL-delimited segments, and their concatenation is the buffer
without its NUL bytes. -/
theorem ListReaders_nonEmptySegments {σ : Type} (N : Native σ) (ctx : Context)
    (w : World σ) :
    (∀ q f : Reply × World σ,
      w.invoke N (Call.ListReaders ctx.ctx none none 0) = q →
      q.2.invoke N (Call.ListReaders ctx.ctx none (some q.1.length) q.1.length) = f →
      ((q.1.status = SCARD_S_SUCCESS ∧ 0 < q.1.length ∧ q.1.length ≤ maxAlloc
          ∧ f.1.status = SCARD_S_SUCCESS) →
        Context.ListReaders N ctx w =
          (.returned (collectNames (writeBuf (List.replicate q.1.length 0) f.1.data), none),
            f.2))
      ∧ (∀ names w', Context.ListReaders N ctx w = (.returned (names, none), w') →
          q.1.status = SCARD_S_SUCCESS ∧ 0 < q.1.length ∧ q.1.length ≤ maxAlloc
          ∧ f.1.status = SCARD_S_SUCCESS))
    ∧ (∀ q f : Reply × World σ,
      w.invoke N (Call.ListReaderGroups ctx.ctx none 0) = q →
      q.2.invoke N (Call.ListReaderGroups ctx.ctx (some q.1.length) q.1.length) = f →
      ((q.1.status = SCARD_S_SUCCESS ∧ 0 < q.1.length ∧ q.1.length ≤ maxAlloc
          ∧ f.1.status = SCARD_S_SUCCESS) →
        Context.ListReaderGroups N ctx w =
          (.returned (collectNames (writeBuf (List.replicate q.1.length 0) f.1.data), none),
            f.2))
      ∧ (∀ names w', Context.ListReaderGroups N ctx w = (.returned (names, none), w') →
          q.1.status = SCARD_S_SUCCESS ∧ 0 < q.1.length ∧ q.1.length ≤ maxAlloc
          ∧ f.1.status = SCARD_S_SUCCESS))
    ∧ (∀ buf : List Byte,
      collectNames buf = nonEmptySegments buf
      ∧ [] ∉ collectNames buf
      ∧ (∀ name ∈ collectNames buf, (0 : Byte) ∉ name)
      ∧ (collectNames buf).length = (nonEmptySegments buf).length
      ∧ (collectNames buf).flatten = buf.filter (fun b => decide (b ≠ 0))) := by
  refine ⟨?_, ?_, ?_⟩
  · intro q f hq hf
    subst hq
    subst hf
    constructor
    · rintro ⟨hs, hn, hm, hfs⟩
      have hn' : ¬ (w.invoke N (Call.ListReaders ctx.ctx none none 0)).1.length = 0 :=
        Nat.ne_of_gt hn
      have hm' : ¬ (w.invoke N (Call.ListReaders ctx.ctx none none 0)).1.length > maxAlloc :=
        Nat.not_lt.mpr hm
      simp only [Context.ListReaders, hs, hfs, ne_eq, not_true_eq_false, if_false,
        List.length_replicate, hn', hm']
    · intro names w' h
      by_cases hs : (w.invoke N (Call.ListReaders ctx.ctx none none 0)).1.status
          = SCARD_S_SUCCESS
      · by_cases hm : (w.invoke N (Call.ListReaders ctx.ctx none none 0)).1.length > maxAlloc
        · simp [Context.ListReaders, hs, hm] at h
        · by_cases hn : (w.invoke N (Call.ListReaders ctx.ctx none none 0)).1.length = 0
          · simp [Context.ListReaders, hs, hm, hn] at h
          · by_cases hfs : ((w.invoke N (Call.ListReaders ctx.ctx none none 0)).2.invoke N
                (Call.ListReaders ctx.ctx none
                  (some (w.invoke N (Call.ListReaders ctx.ctx none none 0)).1.length)
                  (w.invoke N (Call.ListReaders ctx.ctx none none 0)).1.length)).1.status
                = SCARD_S_SUCCESS
            · exact ⟨hs, Nat.pos_of_ne_zero hn, Nat.le_of_not_lt hm, hfs⟩
            · simp [Context.ListReaders, hs, hm, hn, hfs] at h
      · simp [Context.ListReaders, hs] at h
  · intro q f hq hf
    subst hq
    subst hf
    constructor
    · rintro ⟨hs, hn, hm, hfs⟩
      have hn' : ¬ (w.invoke N (Call.ListReaderGroups ctx.ctx none 0)).1.length = 0 :=
        Nat.ne_of_gt hn
      have hm' : ¬ (w.invoke N (Call.ListReaderGroups ctx.ctx none 0)).1.length > maxAlloc :=
        Nat.not_lt.mpr hm
      simp only [Context.ListReaderGroups, hs, hfs, ne_eq, not_true_eq_false, if_false,
        List.length_replicate, hn', hm']
    · intro names w' h
      by_cases hs : (w.invoke N (Call.ListReaderGroups ctx.ctx none 0)).1.status
          = SCARD_S_SUCCESS
      · by_cases hm : (w.invoke N (Call.ListReaderGroups ctx.ctx none 0)).1.length > maxAlloc
        · simp [Context.ListReaderGroups, hs, hm] at h
        · by_cases hn : (w.invoke N (Call.ListReaderGroups ctx.ctx none 0)).1.length = 0
          · simp [Context.ListReaderGroups, hs, hm, hn] at h
          · by_cases hfs : ((w.invoke N (Call.ListReaderGroups ctx.ctx none 0)).2.invoke N
                (Call.ListReaderGroups ctx.ctx
                  (some (w.invoke N (Call.ListReaderGroups ctx.ctx none 0)).1.length)
                  (w.invoke N (Call.ListReaderGroups ctx.ctx none 0)).1.length)).1.status
                = SCARD_S_SUCCESS
            · exact ⟨hs, Nat.pos_of_ne_zero hn, Nat.le_of_not_lt hm, hfs⟩
            · simp [Context.ListReaderGroups, hs, hm, hn, hfs] at h
      · simp [Context.ListReaderGroups, hs] at h
  · intro buf
    rw [collectNames_eq]
    refine ⟨rfl, ?_, ?_, rfl, ?_⟩
    · simp [nonEmptySegments]
    · intro name hname
      simp only [nonEmptySegments, List.mem_filter] at hname
      exact mem_splitOn_not_mem 0 buf name hname.1
    · simp only [nonEmptySegments]
      rw [flatten_filter_ne_nil, flatten_splitOn]

/-- Witness of C1: the size query reports 7 bytes and the fetch stores the
two names `AB` and `C` packed with their terminators; both operations return
the two names.  A size query that reports `2^62` bytes is not a successful
call: `make` panics before the fetch. -/
theorem ListReaders_nonEmptySegments_witness :
    (Context.ListReaders scripted ⟨1⟩
        ⟨[Reply.success 7 [], Reply.success 6 [65, 66, 0, 67, 0, 0]], []⟩).1
      = .returned ([[65, 66], [67]], none)
    ∧ (Context.ListReaderGroups scripted ⟨1⟩
        ⟨[Reply.success 7 [], Reply.success 6 [65, 66, 0, 67, 0, 0]], []⟩).1
      = .returned ([[65, 66], [67]], none)
    ∧ (Context.ListReaders scripted ⟨1⟩
        ⟨[Reply.success 4611686018427387904 [], Reply.success 1 [0]], []⟩).1
      = .panicked .makesliceLenOutOfRange
    ∧ (Context.ListReaders scripted ⟨1⟩
        ⟨[Reply.success 4611686018427387904 [], Reply.success 1 [0]], []⟩).2.log
      = [(Call.ListReaders 1 none none 0, Reply.success 4611686018427387904 [])] := by
  refine ⟨?_, ?_, ?_, ?_⟩
  · rw [((ListReaders_nonEmptySegments scripted ⟨1⟩
      ⟨[Reply.success 7 [], Reply.success 6 [65, 66, 0, 67, 0, 0]], []⟩).1 _ _ rfl rfl).1
      ⟨by decide, by decide, by decide, by decide⟩]
    decide
  · rw [((ListReaders_nonEmptySegments scripted ⟨1⟩
      ⟨[Reply.success 7 [], Reply.success 6 [65, 66, 0, 67, 0, 0]], []⟩).2.1 _ _ rfl rfl).1
      ⟨by decide, by decide, by decide, by decide⟩]
    decide
  · simp [Context.ListReaders, World.invoke, scripted, Reply.success, maxAlloc]
  · simp [Context.ListReaders, World.invoke, scripted, Reply.success, maxAlloc]

/-! ## Validity of a context -/

/-- C2.  `IsValid` makes exactly one native call, the is-valid-context call;
for its status `r`, the result is `(true, nil)` if and only if `r` is the
success status, it is `(false, nil)` if and only if `r` is the invalid-handle
status, and for every other `r` it is `false` together with the error
`scardError(r)`, whose code is `r` itself for every `r` in the 32-bit range of
the native status codes. -/
theorem IsValid_by_status {σ : Type} (N : Native σ) (ctx : Context) (w : World σ)
    (r : LONG) (hr : (w.invoke N (Call.IsValidContext ctx.ctx)).1.status = r) :
    ((Context.IsValid N ctx w).1 = .returned (true, none) ↔ r = SCARD_S_SUCCESS)
    ∧ ((Context.IsValid N ctx w).1 = .returned (false, none) ↔ r = SCARD_E_INVALID_HANDLE)
    ∧ (r ≠ SCARD_S_SUCCESS → r ≠ SCARD_E_INVALID_HANDLE →
        (Context.IsValid N ctx w).1 = .returned (false, some (scardError.ofLONG r))
        ∧ (0 ≤ r → r < 4294967296 → ((scardError.ofLONG r).code : Int) = r))
    ∧ (Context.IsValid N ctx w).2 = (w.invoke N (Call.IsValidContext ctx.ctx)).2 := by
  subst hr
  have hne : SCARD_S_SUCCESS ≠ SCARD_E_INVALID_HANDLE := by decide
  by_cases h0 : (w.invoke N (Call.IsValidContext ctx.ctx)).1.status = SCARD_S_SUCCESS
  · simp [Context.IsValid, h0, hne]
  · by_cases h1 : (w.invoke N (Call.IsValidContext ctx.ctx)).1.status = SCARD_E_INVALID_HANDLE
    · simp [Context.IsValid, h1, hne.symm]
    · simp only [Context.IsValid, h0, h1, if_false, ne_eq, not_false_eq_true, true_implies,
        Outcome.returned.injEq, Prod.mk.injEq, Bool.false_eq_true, false_and, and_true,
        true_and, iff_false, reduceCtorEq, not_false_eq_true, and_false]
      exact ofLONG_code_of_range _

/-- Witness of C2: the native layer answers `SCARD_E_NO_SERVICE`
(`0x8010001D`); `IsValid` returns `false` with the error of that code. -/
theorem IsValid_by_status_witness :
    (Context.IsValid scripted ⟨1⟩ ⟨[Reply.ofStatus 0x8010001D], []⟩).1
      = .returned (false, some ⟨0x8010001D⟩) :=
  ((IsValid_by_status scripted ⟨1⟩ ⟨[Reply.ofStatus 0x8010001D], []⟩ 0x8010001D rfl).2.2.1
    (by decide) (by decide)).1

/-! ## Transmission protocol -/

/-- C3.  For a card whose recorded active protocol is neither T=0 nor T=1 and
for every command, `Transmit` panics with "unknown protocol": it does not
return, and the world (the native state and the log of native calls) is left
as it was, so the native transmit call is not made.  The values "no
protocol", raw and any are such protocols. -/
theorem Transmit_unknown_protocol {σ : Type} (N : Native σ) (card : Card)
    (cmd : List Byte) (w : World σ)
    (h0 : card.activeProtocol ≠ PROTOCOL_T0) (h1 : card.activeProtocol ≠ PROTOCOL_T1) :
    Card.Transmit N card cmd w = (.panicked .unknownProtocol, w)
    ∧ (∀ v, (Card.Transmit N card cmd w).1 ≠ .returned v)
    ∧ (Card.Transmit N card cmd w).2.log = w.log
    ∧ (∀ p ∈ [PROTOCOL_UNDEFINED, PROTOCOL_RAW, PROTOCOL_ANY],
        p ≠ PROTOCOL_T0 ∧ p ≠ PROTOCOL_T1) := by
  have h : Card.Transmit N card cmd w = (.panicked .unknownProtocol, w) := by
    simp [Card.Transmit, sendPciProtocol, h0, h1]
  refine ⟨h, ?_, ?_, ?_⟩
  · intro v; rw [h]; simp
  · rw [h]
  · decide

/-- Witness of C3: a card whose active protocol is "any", "raw" or "no
protocol", with a select command or an empty one. -/
theorem Transmit_unknown_protocol_witness :
    (Card.Transmit scripted ⟨7, PROTOCOL_ANY⟩ [0x00, 0xa4, 0x00, 0x0c] ⟨[], []⟩).1
        = .panicked .unknownProtocol
    ∧ (Card.Transmit scripted ⟨7, PROTOCOL_RAW⟩ [] ⟨[], []⟩).2.log = []
    ∧ (Card.Transmit scripted ⟨7, PROTOCOL_UNDEFINED⟩ [0x00] ⟨[], []⟩).2.log = [] :=
  ⟨congrArg Prod.fst (Transmit_unknown_protocol scripted ⟨7, PROTOCOL_ANY⟩
      [0x00, 0xa4, 0x00, 0x0c] ⟨[], []⟩ (by decide) (by decide)).1,
    (Transmit_unknown_protocol scripted ⟨7, PROTOCOL_RAW⟩ [] ⟨[], []⟩
      (by decide) (by decide)).2.2.1,
    (Transmit_unknown_protocol scripted ⟨7, PROTOCOL_UNDEFINED⟩ [0x00] ⟨[], []⟩
      (by decide) (by decide)).2.2.1⟩

theorem lastNegotiated_append (log : List (Call × Reply)) (e : Call × Reply) :
    lastNegotiated (log ++ [e]) =
      if isNegotiation e then some e.2.protocol else lastNegotiated log := by
  simp only [lastNegotiated, List.reverse_append, List.reverse_cons, List.reverse_nil,
    List.nil_append, List.singleton_append, List.find?_cons]
  cases h : isNegotiation e <;> simp

theorem step_keeps_negotiated {σ : Type} (N : Native σ) (op : ConnOp)
    (cw : Option Card × World σ)
    (h : cw.1.map Card.activeProtocol = lastNegotiated cw.2.log) :
    (op.step N cw).1.map Card.activeProtocol = lastNegotiated (op.step N cw).2.log := by
  obtain ⟨held, w⟩ := cw
  cases op with
  | connect ctx reader mode proto =>
    by_cases hs : (w.invoke N (Call.Connect ctx.ctx (CString reader) mode proto)).1.status
        = SCARD_S_SUCCESS
    · simp [ConnOp.step, Context.Connect, hs, invoke_log, lastNegotiated_append,
        isNegotiation, ← invoke_fst]
    · simp [ConnOp.step, Context.Connect, hs, invoke_log, lastNegotiated_append,
        isNegotiation, ← invoke_fst]
      simpa using h
  | reconnect mode protocol init =>
    cases held with
    | none => simpa [ConnOp.step] using h
    | some card =>
      by_cases hs : (w.invoke N (Call.Reconnect card.handle mode protocol init)).1.status
          = SCARD_S_SUCCESS
      · simp [ConnOp.step, Card.Reconnect, hs, invoke_log, lastNegotiated_append,
          isNegotiation, ← invoke_fst]
      · simp [ConnOp.step, Card.Reconnect, hs, invoke_log, lastNegotiated_append,
          isNegotiation, ← invoke_fst]
        simpa using h

theorem runConnOps_keeps_negotiated {σ : Type} (N : Native σ) (ops : List ConnOp) :
    ∀ cw : Option Card × World σ,
      cw.1.map Card.activeProtocol = lastNegotiated cw.2.log →
      (runConnOps N ops cw).1.map Card.activeProtocol
        = lastNegotiated (runConnOps N ops cw).2.log := by
  induction ops with
  | nil => intro cw h; simpa [runConnOps] using h
  | cons op ops ih =>
    intro cw h
    simp only [runConnOps, List.foldl_cons]
    exact ih _ (step_keeps_negotiated N op cw h)

theorem Transmit_world {σ : Type} (N : Native σ) (card : Card) (cmd : List Byte)
    (w : World σ) (p : DWORD) (hp : sendPciProtocol card.activeProtocol = some p)
    (hcmd : cmd ≠ []) :
    (Card.Transmit N card cmd w).2 =
      (w.invoke N (Call.Transmit card.handle ⟨p, sizeof_SCARD_IO_REQUEST⟩ cmd cmd.length
        MAX_BUFFER_SIZE_EXTENDED)).2 := by
  have hl : ¬ cmd.length = 0 := by
    intro h; exact hcmd (List.length_eq_zero.mp h)
  simp only [Card.Transmit, hp, hl, if_false, List.length_replicate]
  split
  · rfl
  · split
    · rfl
    · split <;> rfl

/-- C4.  Start with no card and an empty log and let the caller issue any
sequence of `Connect` and `Reconnect` requests, with any share modes and
preferred-protocol masks.  The active protocol recorded in the card then held
is the protocol the native layer reported in the most recent successful
connect or reconnect of the log.  A following `Transmit` of a non-empty
command makes the native transmit call with exactly that protocol in the
protocol-control-information when it is T=0 or T=1 (and panics without a call
otherwise).  A failed `Reconnect` returns the error and leaves the card
unchanged. -/
theorem Transmit_passes_negotiated_protocol {σ : Type} (N : Native σ) (s : σ)
    (ops : List ConnOp) (cmd : List Byte) (hcmd : cmd ≠ []) :
    (runConnOps N ops (none, ⟨s, []⟩)).1.map Card.activeProtocol
      = lastNegotiated (runConnOps N ops (none, ⟨s, []⟩)).2.log
    ∧ (∀ card p, (runConnOps N ops (none, ⟨s, []⟩)).1 = some card →
        lastNegotiated (runConnOps N ops (none, ⟨s, []⟩)).2.log = some p →
        ((p = SCARD_PROTOCOL_T0 ∨ p = SCARD_PROTOCOL_T1) →
          (Card.Transmit N card cmd (runConnOps N ops (none, ⟨s, []⟩)).2).2 =
            ((runConnOps N ops (none, ⟨s, []⟩)).2.invoke N
              (Call.Transmit card.handle ⟨p, sizeof_SCARD_IO_REQUEST⟩ cmd cmd.length
                MAX_BUFFER_SIZE_EXTENDED)).2)
        ∧ (p ≠ SCARD_PROTOCOL_T0 → p ≠ SCARD_PROTOCOL_T1 →
          Card.Transmit N card cmd (runConnOps N ops (none, ⟨s, []⟩)).2 =
            (.panicked .unknownProtocol, (runConnOps N ops (none, ⟨s, []⟩)).2)))
    ∧ (∀ (card : Card) (mode protocol init : DWORD) (w : World σ),
        (w.invoke N (Call.Reconnect card.handle mode protocol init)).1.status
          ≠ SCARD_S_SUCCESS →
        (Card.Reconnect N card mode protocol init w).2.1 = card
        ∧ (Card.Reconnect N card mode protocol init w).1 = .returned (some
            (scardError.ofLONG
              (w.invoke N (Call.Reconnect card.handle mode protocol init)).1.status))) := by
  have hinv := runConnOps_keeps_negotiated N ops (none, ⟨s, []⟩) (by simp [lastNegotiated])
  refine ⟨hinv, ?_, ?_⟩
  · intro card p hcard hneg
    rw [hcard, hneg] at hinv
    have hap : card.activeProtocol = p := by simpa using hinv
    constructor
    · intro hp
      apply Transmit_world N card cmd _ p _ hcmd
      rcases hp with hp | hp
      · simp [sendPciProtocol, hap, hp, PROTOCOL_T0]
      · simp [sendPciProtocol, hap, hp, PROTOCOL_T0, PROTOCOL_T1, SCARD_PROTOCOL_T0,
          SCARD_PROTOCOL_T1]
    · intro h0 h1
      have h0' : card.activeProtocol ≠ PROTOCOL_T0 := by rw [hap]; exact h0
      have h1' : card.activeProtocol ≠ PROTOCOL_T1 := by rw [hap]; exact h1
      simp [Card.Transmit, sendPciProtocol, h0', h1']
  · intro card mode protocol init w hs
    simp [Card.Reconnect, hs]

/-- Witness of C4: after the scripted requests the card held records T=1, the
protocol of the last successful reconnect, and the transmit call of a
following `Transmit` carries T=1. -/
theorem Transmit_passes_negotiated_protocol_witness :
    (runConnOps scripted negotiationOps (none, ⟨negotiationScript, []⟩)).1
        = some ⟨7, SCARD_PROTOCOL_T1⟩
    ∧ (Card.Transmit scripted ⟨7, SCARD_PROTOCOL_T1⟩ [0x00, 0xa4]
        (runConnOps scripted negotiationOps (none, ⟨negotiationScript, []⟩)).2).2 =
      ((runConnOps scripted negotiationOps (none, ⟨negotiationScript, []⟩)).2.invoke scripted
        (Call.Transmit 7 ⟨SCARD_PROTOCOL_T1, sizeof_SCARD_IO_REQUEST⟩ [0x00, 0xa4] 2
          MAX_BUFFER_SIZE_EXTENDED)).2 :=
  ⟨by decide,
    ((Transmit_passes_negotiated_protocol scripted negotiationScript negotiationOps
      [0x00, 0xa4] (by decide)).2.1 ⟨7, SCARD_PROTOCOL_T1⟩ SCARD_PROTOCOL_T1
      (by decide) (by decide)).1 (Or.inr rfl)⟩

/-! ## Status change -/

theorem forRange_succ {β : Type} (n : Nat) (body : Nat → β → β) (init : β) :
    forRange (n + 1) body init = body n (forRange n body init) := by
  simp [forRange, List.range_succ, List.foldl_append]

theorem forRange_getElem? {β : Type} (body : Nat → List β → List β)
    (F : Nat → Option β → Option β)
    (hother : ∀ i acc j, j ≠ i → (body i acc)[j]? = acc[j]?)
    (hat : ∀ i acc, (body i acc)[i]? = F i acc[i]?) :
    ∀ k init j, (forRange k body init)[j]? = if j < k then F j init[j]? else init[j]? := by
  intro k
  induction k with
  | zero => intro init j; simp [forRange]
  | succ k ih =>
    intro init j
    rw [forRange_succ]
    by_cases hj : j = k
    · subst hj
      rw [hat, ih]
      simp
    · rw [hother _ _ _ hj, ih]
      have : (j < k + 1) = (j < k) := by
        apply propext; constructor <;> intro h <;> omega
      simp only [this]

theorem marshalState_other (readerStates : List ReaderState) (i : Nat)
    (crs : List SCARD_READERSTATE) (j : Nat) (h : j ≠ i) :
    (marshalState readerStates i crs)[j]? = crs[j]? := by
  unfold marshalState
  split
  · rw [List.getElem?_set_ne (Ne.symm h)]
  · rfl

theorem marshalState_at (readerStates : List ReaderState) (i : Nat)
    (crs : List SCARD_READERSTATE) :
    (marshalState readerStates i crs)[i]? = marshalAt readerStates i crs[i]? := by
  cases h1 : readerStates[i]? with
  | none => simp [marshalState, marshalAt, h1]
  | some rs =>
    cases h2 : crs[i]? with
    | none => simp [marshalState, marshalAt, h1, h2]
    | some c =>
      simp only [marshalState, marshalAt, h1, h2]
      rw [List.getElem?_set_self']
      simp [h2]

theorem marshal_eq (readerStates : List ReaderState) :
    forRange readerStates.length (marshalState readerStates)
      (List.replicate readerStates.length SCARD_READERSTATE.zero)
      = marshalled readerStates := by
  apply List.ext_getElem?
  intro j
  rw [forRange_getElem? _ _ (marshalState_other readerStates) (marshalState_at readerStates)]
  by_cases hj : j < readerStates.length
  · simp [hj, marshalled, marshalAt, List.getElem?_eq_getElem hj, SCARD_READERSTATE.zero]
  · have hj' : readerStates.length ≤ j := Nat.le_of_not_lt hj
    simp [hj, marshalled, marshalAt, List.getElem?_eq_none hj']
    exact hj'

theorem storeEventState_other (crs : List SCARD_READERSTATE) (i : Nat)
    (readerStates : List ReaderState) (j : Nat) (h : j ≠ i) :
    (storeEventState crs i readerStates)[j]? = readerStates[j]? := by
  unfold storeEventState
  split
  · rw [List.getElem?_set_ne (Ne.symm h)]
  · rfl

theorem storeEventState_at (crs : List SCARD_READERSTATE) (i : Nat)
    (readerStates : List ReaderState) :
    (storeEventState crs i readerStates)[i]? = storeAt crs i readerStates[i]? := by
  cases h1 : readerStates[i]? with
  | none => simp [storeEventState, storeAt, h1]
  | some rs =>
    cases h2 : crs[i]? with
    | none => simp [storeEventState, storeAt, h1, h2]
    | some c =>
      simp only [storeEventState, storeAt, h1, h2]
      rw [List.getElem?_set_self']
      simp [h1]

theorem storeEventState_length (crs : List SCARD_READERSTATE) (i : Nat)
    (readerStates : List ReaderState) :
    (storeEventState crs i readerStates).length = readerStates.length := by
  unfold storeEventState
  split
  · rw [List.length_set]
  · rfl

theorem forRange_store_length (crs : List SCARD_READERSTATE) (k : Nat)
    (readerStates : List ReaderState) :
    (forRange k (storeEventState crs) readerStates).length = readerStates.length := by
  induction k with
  | zero => simp [forRange]
  | succ k ih => rw [forRange_succ, storeEventState_length, ih]

/-- C6.  For a non-empty sequence of reader states, `GetStatusChange` makes
the native status-change call on the marshalled array.  When the call
succeeds it returns no error and the sequence has the same length, the
element at each index `i` being the input element with only `EventState`
replaced by the event state found at index `i` of the native array after the
call (so `Reader` and `CurrentState` are unchanged).  When the call fails it
returns the error of that status and the sequence is unchanged. -/
theorem GetStatusChange_event_states {σ : Type} (N : Native σ) (ctx : Context)
    (readerStates : List ReaderState) (timeout : DWORD) (w : World σ)
    (hne : readerStates ≠ []) :
    ((w.invoke N (Call.GetStatusChange ctx.ctx timeout (marshalled readerStates)
        readerStates.length)).1.status = SCARD_S_SUCCESS →
      (Context.GetStatusChange N ctx readerStates timeout w).1 = .returned none
      ∧ (Context.GetStatusChange N ctx readerStates timeout w).2.2 =
          (w.invoke N (Call.GetStatusChange ctx.ctx timeout (marshalled readerStates)
            readerStates.length)).2
      ∧ (Context.GetStatusChange N ctx readerStates timeout w).2.1.length
          = readerStates.length
      ∧ ∀ i, i < readerStates.length → ∃ rs c,
          readerStates[i]? = some rs
          ∧ (writeBuf (marshalled readerStates)
              (w.invoke N (Call.GetStatusChange ctx.ctx timeout (marshalled readerStates)
                readerStates.length)).1.readerStates)[i]? = some c
          ∧ (Context.GetStatusChange N ctx readerStates timeout w).2.1[i]?
              = some ⟨rs.Reader, rs.CurrentState, c.dwEventState⟩)
    ∧ ((w.invoke N (Call.GetStatusChange ctx.ctx timeout (marshalled readerStates)
        readerStates.length)).1.status ≠ SCARD_S_SUCCESS →
      Context.GetStatusChange N ctx readerStates timeout w =
        (.returned (some (scardError.ofLONG
            (w.invoke N (Call.GetStatusChange ctx.ctx timeout (marshalled readerStates)
              readerStates.length)).1.status)),
          readerStates,
          (w.invoke N (Call.GetStatusChange ctx.ctx timeout (marshalled readerStates)
            readerStates.length)).2)) := by
  have hlen : (marshalled readerStates).length = readerStates.length := by
    simp [marshalled]
  have hn0 : ¬ readerStates.length = 0 := fun h => hne (List.length_eq_zero.mp h)
  constructor
  · intro hs
    simp only [Context.GetStatusChange, marshal_eq, hlen, hn0, hs, if_false, ne_eq,
      not_true_eq_false, forRange_store_length, true_and]
    intro i hi
    have hc : i < (writeBuf (marshalled readerStates)
        (w.invoke N (Call.GetStatusChange ctx.ctx timeout (marshalled readerStates)
          readerStates.length)).1.readerStates).length := by
      rw [writeBuf_length, hlen]; exact hi
    refine ⟨readerStates[i], _, List.getElem?_eq_getElem hi, List.getElem?_eq_getElem hc, ?_⟩
    rw [forRange_getElem? _ _ (storeEventState_other _) (storeEventState_at _)]
    simp [hi, storeAt, List.getElem?_eq_getElem hi, List.getElem?_eq_getElem hc]
  · intro hs
    simp only [Context.GetStatusChange, marshal_eq, hlen, hn0, hs, if_false, ne_eq,
      not_false_eq_true, if_true]

/-- Witness of C6: two readers are watched; the native layer stores the event
states `0x22` and `0x12` and scribbles over the other fields of its array. -/
theorem GetStatusChange_event_states_witness :
    (Context.GetStatusChange scripted ⟨1⟩ [⟨[65], 0, 9⟩, ⟨[66], 16, 9⟩] 1000
      ⟨[Reply.changed [⟨[], 5, 1, 0x22, 3, [59]⟩, ⟨[90], 5, 1, 0x12, 0, []⟩]], []⟩).2.1
      = [⟨[65], 0, 0x22⟩, ⟨[66], 16, 0x12⟩]
    ∧ (Context.GetStatusChange scripted ⟨1⟩ [⟨[65], 0, 9⟩, ⟨[66], 16, 9⟩] 1000
      ⟨[Reply.changed [⟨[], 5, 1, 0x22, 3, [59]⟩, ⟨[90], 5, 1, 0x12, 0, []⟩]], []⟩).1
      = .returned none :=
  ⟨by decide,
    ((GetStatusChange_event_states scripted ⟨1⟩ [⟨[65], 0, 9⟩, ⟨[66], 16, 9⟩] 1000
      ⟨[Reply.changed [⟨[], 5, 1, 0x22, 3, [59]⟩, ⟨[90], 5, 1, 0x12, 0, []⟩]], []⟩
      (by decide)).1 (by decide)).1⟩

/-! ## Control and status -/

theorem writeBuf_take {α : Type} (buf written : List α) (n : Nat)
    (hn : n ≤ written.length) (hb : n ≤ buf.length) :
    (writeBuf buf written).take n = written.take n := by
  simp only [writeBuf, List.take_take, Nat.min_eq_left hb]
  exact List.take_append_of_le_length hn

theorem Control_result {σ : Type} (N : Native σ) (card : Card) (ctrl : DWORD)
    (cmd : List Byte) (w : World σ) (c : Call)
    (hc : (Card.Control N card ctrl cmd w) =
      (if (w.invoke N c).1.status ≠ SCARD_S_SUCCESS then
        (.returned ([], some (scardError.ofLONG (w.invoke N c).1.status)), (w.invoke N c).2)
      else if (w.invoke N c).1.length > maxAlloc then
        (.panicked .makesliceLenOutOfRange, (w.invoke N c).2)
      else if (w.invoke N c).1.length > controlRecvSize then
        (.panicked .sliceBoundsOutOfRange, (w.invoke N c).2)
      else
        (.returned ((writeBuf (List.replicate controlRecvSize 0) (w.invoke N c).1.data).take
          (w.invoke N c).1.length, none), (w.invoke N c).2))) :
    (Card.Control N card ctrl cmd w).2 = (w.invoke N c).2
    ∧ ((w.invoke N c).1.status = SCARD_S_SUCCESS → (w.invoke N c).1.length ≤ controlRecvSize →
        (Card.Control N card ctrl cmd w).1 =
          .returned ((writeBuf (List.replicate controlRecvSize 0) (w.invoke N c).1.data).take
            (w.invoke N c).1.length, none)
        ∧ ((writeBuf (List.replicate controlRecvSize 0) (w.invoke N c).1.data).take
            (w.invoke N c).1.length).length = (w.invoke N c).1.length
        ∧ ((w.invoke N c).1.length ≤ (w.invoke N c).1.data.length →
            (writeBuf (List.replicate controlRecvSize 0) (w.invoke N c).1.data).take
              (w.invoke N c).1.length = (w.invoke N c).1.data.take (w.invoke N c).1.length))
    ∧ ((w.invoke N c).1.status ≠ SCARD_S_SUCCESS →
        (Card.Control N card ctrl cmd w).1 =
          .returned ([], some (scardError.ofLONG (w.invoke N c).1.status))) := by
  rw [hc]
  refine ⟨?_, ?_, ?_⟩
  · split
    · rfl
    · split
      · rfl
      · split <;> rfl
  · intro hs hl
    have hl' : ¬ (w.invoke N c).1.length > controlRecvSize := Nat.not_lt.mpr hl
    have hm : ¬ (w.invoke N c).1.length > maxAlloc :=
      Nat.not_lt.mpr (Nat.le_trans hl (by decide))
    refine ⟨by simp [hs, hl', hm], ?_, ?_⟩
    · rw [List.length_take_of_le]
      rw [writeBuf_length, List.length_replicate]
      exact hl
    · intro hd
      exact writeBuf_take _ _ _ hd (by rw [List.length_replicate]; exact hl)
  · intro hs
    simp [hs]

/-- C8.  `Control` makes the native control call for every control code and
every command: an empty command goes as a null pointer with length zero, a
non-empty command as its own bytes with its own length.  The operation never
ends before that call (its world is the world after the call).  When the call
succeeds and reports a length `n` of at most `0xffff`, the scratch capacity,
the result is without error the first `n` bytes of the scratch buffer after
the call, a sequence of length exactly `n` (the first `n` bytes stored by the
native layer when it stored at least `n`); when the call fails the result is
the error of its status. -/
theorem Control_passes_command {σ : Type} (N : Native σ) (card : Card) (ctrl : DWORD)
    (cmd : List Byte) (w : World σ) (c : Call)
    (hc : (cmd = [] ∧ c = Call.Control card.handle ctrl none 0 controlRecvSize)
      ∨ (cmd ≠ [] ∧ c = Call.Control card.handle ctrl (some cmd) cmd.length controlRecvSize)) :
    (Card.Control N card ctrl cmd w).2 = (w.invoke N c).2
    ∧ ((w.invoke N c).1.status = SCARD_S_SUCCESS → (w.invoke N c).1.length ≤ controlRecvSize →
        (Card.Control N card ctrl cmd w).1 =
          .returned ((writeBuf (List.replicate controlRecvSize 0) (w.invoke N c).1.data).take
            (w.invoke N c).1.length, none)
        ∧ ((writeBuf (List.replicate controlRecvSize 0) (w.invoke N c).1.data).take
            (w.invoke N c).1.length).length = (w.invoke N c).1.length
        ∧ ((w.invoke N c).1.length ≤ (w.invoke N c).1.data.length →
            (writeBuf (List.replicate controlRecvSize 0) (w.invoke N c).1.data).take
              (w.invoke N c).1.length = (w.invoke N c).1.data.take (w.invoke N c).1.length))
    ∧ ((w.invoke N c).1.status ≠ SCARD_S_SUCCESS →
        (Card.Control N card ctrl cmd w).1 =
          .returned ([], some (scardError.ofLONG (w.invoke N c).1.status))) := by
  apply Control_result
  rcases hc with ⟨h, rfl⟩ | ⟨h, rfl⟩
  · subst h
    simp only [Card.Control, List.length_nil, if_true, List.length_replicate, writeBuf_length]
  · have hl : ¬ cmd.length = 0 := fun h0 => h (List.length_eq_zero.mp h0)
    simp only [Card.Control, hl, if_false, List.length_replicate, writeBuf_length]

/-- Witness of C8: an empty command; the native layer reports two bytes and
stores the status word `90 00`. -/
theorem Control_passes_command_witness :
    (Card.Control scripted ⟨7, 2⟩ 0x42000d48 [] ⟨[Reply.success 2 [0x90, 0x00]], []⟩).1
      = .returned ([0x90, 0x00], none) := by
  have h := (Control_passes_command scripted ⟨7, 2⟩ 0x42000d48 []
    ⟨[Reply.success 2 [0x90, 0x00]], []⟩ (Call.Control 7 0x42000d48 none 0 controlRecvSize)
    (Or.inl ⟨rfl, rfl⟩)).2.1 (by decide) (by decide)
  rw [h.1, h.2.2 (by decide)]
  rfl

theorem indexByte_cut (c : Byte) : ∀ l : List Byte,
    (match IndexByte l c with
      | some z => l.take z
      | none => l) = l.takeWhile (fun b => decide (b ≠ c)) := by
  intro l
  induction l with
  | nil => simp [IndexByte]
  | cons x xs ih =>
    by_cases hx : x = c
    · simp [IndexByte, hx]
    · simp only [IndexByte, if_neg hx]
      cases hm : IndexByte xs c with
      | none =>
        rw [hm] at ih
        simp only [Option.map_none']
        rw [List.takeWhile_cons_of_pos (by simpa using hx), ← ih]
      | some m =>
        rw [hm] at ih
        simp only [Option.map_some', List.take_succ_cons]
        rw [List.takeWhile_cons_of_pos (by simpa using hx), ← ih]

/-- C9.  When the native status call succeeds and reports a reader-name
length `L` of at most the capacity `MAX_READERNAME + 1` and an ATR length `A`
of at most `MAX_ATR_SIZE`, `Status` returns without error a status whose
`Reader` is the first `L` bytes of the name buffer cut before the first NUL
among them (all `L` bytes when none is NUL), hence without NUL and of length
at most `L`; whose `ATR` is exactly the first `A` bytes of the ATR buffer; and
whose `State` and `ActiveProtocol` are the native outputs. -/
theorem Status_trims {σ : Type} (N : Native σ) (card : Card) (w : World σ)
    (q : Reply × World σ)
    (hq : w.invoke N (Call.Status card.handle (MAX_READERNAME + 1) MAX_ATR_SIZE) = q)
    (hs : q.1.status = SCARD_S_SUCCESS)
    (hL : q.1.length ≤ MAX_READERNAME + 1) (hA : q.1.atrLen ≤ MAX_ATR_SIZE) :
    ∃ st : CardStatus,
      Card.Status N card w = (.returned (some st, none), q.2)
      ∧ st.Reader =
          ((writeBuf (List.replicate (MAX_READERNAME + 1) 0) q.1.data).take
            q.1.length).takeWhile (fun b => decide (b ≠ 0))
      ∧ (0 : Byte) ∉ st.Reader
      ∧ st.Reader.length ≤ q.1.length
      ∧ st.ATR = (writeBuf (List.replicate MAX_ATR_SIZE 0) q.1.atr).take q.1.atrLen
      ∧ st.ATR.length = q.1.atrLen
      ∧ st.State = q.1.state
      ∧ st.ActiveProtocol = q.1.protocol := by
  subst hq
  have hL' : ¬ (w.invoke N (Call.Status card.handle (MAX_READERNAME + 1)
      MAX_ATR_SIZE)).1.length > MAX_READERNAME + 1 := Nat.not_lt.mpr hL
  have hA' : ¬ (w.invoke N (Call.Status card.handle (MAX_READERNAME + 1)
      MAX_ATR_SIZE)).1.atrLen > MAX_ATR_SIZE := Nat.not_lt.mpr hA
  refine ⟨⟨((writeBuf (List.replicate (MAX_READERNAME + 1) 0)
      (w.invoke N (Call.Status card.handle (MAX_READERNAME + 1) MAX_ATR_SIZE)).1.data).take
      (w.invoke N (Call.Status card.handle (MAX_READERNAME + 1) MAX_ATR_SIZE)).1.length).takeWhile
        (fun b => decide (b ≠ 0)),
    (w.invoke N (Call.Status card.handle (MAX_READERNAME + 1) MAX_ATR_SIZE)).1.state,
    (w.invoke N (Call.Status card.handle (MAX_READERNAME + 1) MAX_ATR_SIZE)).1.protocol,
    (writeBuf (List.replicate MAX_ATR_SIZE 0)
      (w.invoke N (Call.Status card.handle (MAX_READERNAME + 1) MAX_ATR_SIZE)).1.atr).take
      (w.invoke N (Call.Status card.handle (MAX_READERNAME + 1) MAX_ATR_SIZE)).1.atrLen⟩,
    ?_, rfl, ?_, ?_, rfl, ?_, rfl, rfl⟩
  · simp only [Card.Status, List.length_replicate, hs, ne_eq, not_true_eq_false, if_false,
      writeBuf_length, hL', hA', indexByte_cut]
  · intro h
    have := List.mem_takeWhile_imp h
    simp at this
  · exact Nat.le_trans (List.takeWhile_sublist _).length_le (List.length_take_le _ _)
  · rw [List.length_take_of_le]
    rw [writeBuf_length, List.length_replicate]
    exact hA

/-- Witness of C9: the native layer reports a name of four bytes `R1\0\0`, the
state `0x34`, the protocol T=1 and an ATR of two bytes. -/
theorem Status_trims_witness :
    ∃ st : CardStatus,
      Card.Status scripted ⟨7, 2⟩
          ⟨[Reply.cardStatus 4 [82, 49, 0, 0] 0x34 SCARD_PROTOCOL_T1 [0x3b, 0x00] 2], []⟩
        = (.returned (some st, none),
            (World.invoke scripted
              ⟨[Reply.cardStatus 4 [82, 49, 0, 0] 0x34 SCARD_PROTOCOL_T1 [0x3b, 0x00] 2], []⟩
              (Call.Status 7 (MAX_READERNAME + 1) MAX_ATR_SIZE)).2)
      ∧ st.Reader.length ≤ 4 ∧ st.ATR.length = 2 ∧ st.State = 0x34 := by
  obtain ⟨st, h1, _, _, h4, _, h6, h7, _⟩ := Status_trims scripted ⟨7, 2⟩
    ⟨[Reply.cardStatus 4 [82, 49, 0, 0] 0x34 SCARD_PROTOCOL_T1 [0x3b, 0x00] 2], []⟩ _ rfl
    (by decide) (by decide) (by decide)
  exact ⟨st, h1, h4, h6, h7⟩

/-! ## Propagation of native failures -/

theorem failStop_nil (err : Option scardError) : FailStop (err, []) := by
  simp [FailStop]

theorem failStop_one (err : Option scardError) (e : Call × Reply)
    (h : e.2.status ≠ SCARD_S_SUCCESS → err = some (scardError.ofLONG e.2.status)) :
    FailStop (err, [e]) := by
  refine ⟨by simp, ?_⟩
  intro e' he hs
  simp at he
  subst he
  exact h hs

theorem failStop_two (err : Option scardError) (e1 e2 : Call × Reply)
    (h1 : e1.2.status = SCARD_S_SUCCESS)
    (h : e2.2.status ≠ SCARD_S_SUCCESS → err = some (scardError.ofLONG e2.2.status)) :
    FailStop (err, [e1, e2]) := by
  refine ⟨by simp [h1], ?_⟩
  intro e' he hs
  simp at he
  subst he
  exact h hs

theorem run_failStop {σ : Type} (N : Native σ) (s : σ) (op : Op)
    (hop : ∀ ctx, op ≠ .IsValid ctx) : FailStop (op.run N s) := by
  cases op with
  | IsValid ctx => exact absurd rfl (hop ctx)
  | _ =>
    simp only [Op.run, EstablishContext, Context.Cancel, Context.Release, Context.ListReaders,
      Context.ListReaderGroups, Context.GetStatusChange, Context.Connect, Card.Disconnect,
      Card.Reconnect, Card.BeginTransaction, Card.EndTransaction, Card.Status, Card.Transmit,
      Card.Control, Card.GetAttrib, Card.SetAttrib, World.invoke, List.nil_append,
      List.singleton_append]
    repeat' split
    all_goals first
      | exact failStop_nil _
      | exact failStop_one _ _ (fun _ => rfl)
      | exact failStop_one _ _ (fun h' => absurd h' (by assumption))
      | exact failStop_two _ _ _ (not_not.mp (by assumption)) (fun _ => rfl)
      | exact failStop_two _ _ _ (not_not.mp (by assumption))
          (fun h' => absurd h' (by assumption))

/-- C5, as stated, fails: `IsValid` is a binding operation, and when its
native call reports the invalid-handle status, which is not success, it
returns no error. -/
theorem failStop_IsValid_counterexample :
    ¬ FailStop (Op.run scripted [Reply.ofStatus SCARD_E_INVALID_HANDLE] (.IsValid ⟨1⟩)) := by
  intro h
  have h2 := h.2 (Call.IsValidContext 1, Reply.ofStatus SCARD_E_INVALID_HANDLE) rfl
    (by decide)
  exact absurd h2 (by decide)

/-- C5, amended.  For every binding operation other than `IsValid`, run from
any native state: no native call follows one that did not succeed, and when
the last call did not succeed the operation returns the error `scardError` of
exactly its status.  `IsValid` makes one native call and returns the error of
its status for every status other than success and invalid handle; for
invalid handle it returns `false` and no error.  For `ListReaders`,
`ListReaderGroups` and `GetAttrib`, when the size query fails the operation
returns nil data with that error and the world is the one after the size
query alone: the fetch call is not made. -/
theorem native_failure_propagates {σ : Type} (N : Native σ) (s : σ) :
    (∀ op : Op, (∀ ctx, op ≠ .IsValid ctx) → FailStop (op.run N s))
    ∧ (∀ ctx : Context,
        (Op.run N s (.IsValid ctx)).2 =
          [(Call.IsValidContext ctx.ctx, (N s (Call.IsValidContext ctx.ctx)).1)]
        ∧ ((N s (Call.IsValidContext ctx.ctx)).1.status ≠ SCARD_S_SUCCESS →
            (N s (Call.IsValidContext ctx.ctx)).1.status ≠ SCARD_E_INVALID_HANDLE →
            (Op.run N s (.IsValid ctx)).1 =
              some (scardError.ofLONG (N s (Call.IsValidContext ctx.ctx)).1.status))
        ∧ ((N s (Call.IsValidContext ctx.ctx)).1.status = SCARD_E_INVALID_HANDLE →
            (ctx.IsValid N ⟨s, []⟩).1 = .returned (false, none)))
    ∧ (∀ (ctx : Context) (w : World σ),
        (w.invoke N (Call.ListReaders ctx.ctx none none 0)).1.status ≠ SCARD_S_SUCCESS →
        ctx.ListReaders N w =
          (.returned ([], some (scardError.ofLONG
              (w.invoke N (Call.ListReaders ctx.ctx none none 0)).1.status)),
            (w.invoke N (Call.ListReaders ctx.ctx none none 0)).2))
    ∧ (∀ (ctx : Context) (w : World σ),
        (w.invoke N (Call.ListReaderGroups ctx.ctx none 0)).1.status ≠ SCARD_S_SUCCESS →
        ctx.ListReaderGroups N w =
          (.returned ([], some (scardError.ofLONG
              (w.invoke N (Call.ListReaderGroups ctx.ctx none 0)).1.status)),
            (w.invoke N (Call.ListReaderGroups ctx.ctx none 0)).2))
    ∧ (∀ (card : Card) (id : DWORD) (w : World σ),
        (w.invoke N (Call.GetAttrib card.handle id none 0)).1.status ≠ SCARD_S_SUCCESS →
        card.GetAttrib N id w =
          (.returned ([], some (scardError.ofLONG
              (w.invoke N (Call.GetAttrib card.handle id none 0)).1.status)),
            (w.invoke N (Call.GetAttrib card.handle id none 0)).2)) := by
  refine ⟨fun op hop => run_failStop N s op hop, ?_, ?_, ?_, ?_⟩
  · intro ctx
    have hne : SCARD_S_SUCCESS ≠ SCARD_E_INVALID_HANDLE := by decide
    refine ⟨?_, ?_, ?_⟩
    · simp only [Op.run, Context.IsValid, World.invoke, List.nil_append]
      split
      · rfl
      · split <;> rfl
    · intro h0 h1
      simp [Op.run, Context.IsValid, World.invoke, h0, h1, errorOfPair]
    · intro h1
      simp [Context.IsValid, World.invoke, h1, hne.symm]
  · intro ctx w hs
    simp [Context.ListReaders, hs]
  · intro ctx w hs
    simp [Context.ListReaderGroups, hs]
  · intro card id w hs
    simp [Card.GetAttrib, hs]

/-- Witness of C5: the size query of `ListReaders` fails with
`SCARD_E_NO_SERVICE` (`0x8010001D`); the operation returns nil data with the
error of that code after that single native call. -/
theorem native_failure_propagates_witness :
    (Context.ListReaders scripted ⟨1⟩
        ⟨[Reply.ofStatus 0x8010001D, Reply.success 3 [65, 0, 0]], []⟩).1
      = .returned ([], some ⟨0x8010001D⟩)
    ∧ (Context.ListReaders scripted ⟨1⟩
        ⟨[Reply.ofStatus 0x8010001D, Reply.success 3 [65, 0, 0]], []⟩).2.log
      = [(Call.ListReaders 1 none none 0, Reply.ofStatus 0x8010001D)] := by
  have h := (native_failure_propagates scripted
    [Reply.ofStatus 0x8010001D, Reply.success 3 [65, 0, 0]]).2.2.1 ⟨1⟩
    ⟨[Reply.ofStatus 0x8010001D, Reply.success 3 [65, 0, 0]], []⟩ (by decide)
  rw [h]
  exact ⟨rfl, rfl⟩

/-! ## Empty slices -/

/-- C7, what the code does.  For the empty sequence of reader states, every
context, timeout and world, `GetStatusChange` panics with an index out of
range when it takes the address of `crs[0]`: the native status-change call is
not made and no status is returned. -/
theorem GetStatusChange_empty_panics {σ : Type} (N : Native σ) (ctx : Context)
    (timeout : DWORD) (w : World σ) :
    Context.GetStatusChange N ctx [] timeout w = (.panicked .indexOutOfRange, [], w) := by
  simp [Context.GetStatusChange, forRange]

/-- C10, what the code does.  Whenever the size query succeeds and reports
the size zero, `ListReaders` and `ListReaderGroups` panic with an index out
of range when they take the address of `data[0]`: they do not return the
empty sequence, and the world is the one after the size query alone. -/
theorem ListReaders_size_zero_panics {σ : Type} (N : Native σ) (ctx : Context)
    (w : World σ) :
    ((w.invoke N (Call.ListReaders ctx.ctx none none 0)).1.status = SCARD_S_SUCCESS →
      (w.invoke N (Call.ListReaders ctx.ctx none none 0)).1.length = 0 →
      ctx.ListReaders N w =
        (.panicked .indexOutOfRange, (w.invoke N (Call.ListReaders ctx.ctx none none 0)).2))
    ∧ ((w.invoke N (Call.ListReaderGroups ctx.ctx none 0)).1.status = SCARD_S_SUCCESS →
      (w.invoke N (Call.ListReaderGroups ctx.ctx none 0)).1.length = 0 →
      ctx.ListReaderGroups N w =
        (.panicked .indexOutOfRange,
          (w.invoke N (Call.ListReaderGroups ctx.ctx none 0)).2)) := by
  constructor
  · intro hs hn
    simp [Context.ListReaders, hs, hn]
  · intro hs hn
    simp [Context.ListReaderGroups, hs, hn]

/-- Failing input of C10: the size query answers success with the size zero.
Both operations panic after that single call; with the size one and a
fetched buffer that holds the lone terminator they return the empty sequence
and no error. -/
theorem ListReaders_size_zero_panics_witness :
    (Context.ListReaders scripted ⟨1⟩ ⟨[Reply.success 0 []], []⟩).1
        = .panicked .indexOutOfRange
    ∧ (Context.ListReaders scripted ⟨1⟩ ⟨[Reply.success 0 []], []⟩).2.log
        = [(Call.ListReaders 1 none none 0, Reply.success 0 [])]
    ∧ (Context.ListReaderGroups scripted ⟨1⟩ ⟨[Reply.success 0 []], []⟩).1
        = .panicked .indexOutOfRange
    ∧ (Context.ListReaderGroups scripted ⟨1⟩ ⟨[Reply.success 0 []], []⟩).2.log
        = [(Call.ListReaderGroups 1 none 0, Reply.success 0 [])]
    ∧ (Context.ListReaders scripted ⟨1⟩
        ⟨[Reply.success 1 [], Reply.success 1 [0]], []⟩).1 = .returned ([], none)
    ∧ (Context.ListReaderGroups scripted ⟨1⟩
        ⟨[Reply.success 1 [], Reply.success 1 [0]], []⟩).1 = .returned ([], none) := by
  have h := ListReaders_size_zero_panics scripted ⟨1⟩ ⟨[Reply.success 0 []], []⟩
  refine ⟨?_, ?_, ?_, ?_, by decide, by decide⟩
  · rw [h.1 (by decide) (by decide)]
  · rw [h.1 (by decide) (by decide)]; rfl
  · rw [h.2 (by decide) (by decide)]
  · rw [h.2 (by decide) (by decide)]; rfl

end scard
